import Mathlib

/-
Verification of the session and task orchestration subsystem of a quiz bot.
The development shallowly embeds the relevant program parts:
  - utils/queue_manager.py  : the bounded admission-controlled task queue
  - main.py                 : the worker loop draining the queue
  - processors/csv_processor.py : row-based artifact serialization and parsing
  - bot/content_processor.py: the content pipeline and the posting pipeline
  - bot/handlers.py, bot/callbacks.py : session store mutations
Python dictionaries become association lists, exceptions become Except,
in-place list mutation is modelled by returning the post-call value of the
mutated argument, and external collaborators (extraction service, chat
transport, quiz poster) are parameters of the embedded functions.
-/

/-! ## Task queue (utils/queue_manager.py, class TaskQueue)

A task entry is the pair of its owner id and its payload; the enqueue
timestamp recorded by the source is an external clock value with no
influence on control flow and is omitted.  The `processing` dict of the
source is modelled by its key set, a duplicate-free list of user ids. -/

structure TaskQueue (α : Type) where
  queue : List (Nat × α)
  processing : List Nat
deriving Repr, DecidableEq

/-- TaskQueue.__init__: empty queue, empty processing set. -/
def TaskQueue.init (α : Type) : TaskQueue α := ⟨[], []⟩

/-- TaskQueue.add_task: reject with -2 when the owner is being processed or
already has a queued task, reject with -1 when the queue is at the
configured capacity, otherwise append at the tail and return the new
length (the 1-based tail position). -/
def add_task (maxQueueSize : Nat) (s : TaskQueue α) (u : Nat) (d : α) :
    Int × TaskQueue α :=
  if u ∈ s.processing then (-2, s)
  else if ∃ t ∈ s.queue, t.1 = u then (-2, s)
  else if maxQueueSize ≤ s.queue.length then (-1, s)
  else (((s.queue.length + 1 : Nat) : Int),
    { s with queue := s.queue ++ [(u, d)] })

/-- TaskQueue.get_next_task: pop the head of the queue, if any. -/
def get_next_task (s : TaskQueue α) : Option (Nat × α) × TaskQueue α :=
  match s.queue with
  | [] => (none, s)
  | t :: rest => (some t, { s with queue := rest })

/-- Helper for get_position: the source iterates with enumerate and
returns idx + 1 at the first matching entry, else 0. -/
def get_position_from (u : Nat) : List (Nat × α) → Nat → Nat
  | [], _ => 0
  | t :: rest, idx => if t.1 = u then idx + 1 else get_position_from u rest (idx + 1)

/-- TaskQueue.get_position: 0 when the owner has no queued task, else the
1-based index of its task. -/
def get_position (s : TaskQueue α) (u : Nat) : Nat :=
  get_position_from u s.queue 0

/-- TaskQueue.is_processing: membership of the owner in the processing set. -/
def is_processing (s : TaskQueue α) (u : Nat) : Bool :=
  decide (u ∈ s.processing)

/-- TaskQueue.set_processing: insert the owner into the processing set when
status is true (dict key assignment), remove it when false (dict pop). -/
def set_processing (s : TaskQueue α) (u : Nat) (status : Bool) : TaskQueue α :=
  if status then
    { s with processing := if u ∈ s.processing then s.processing else u :: s.processing }
  else
    { s with processing := s.processing.filter (fun v => decide (v ≠ u)) }

/-- TaskQueue.get_queue_size. -/
def get_queue_size (s : TaskQueue α) : Nat := s.queue.length

/-- TaskQueue.clear_user: drop the queued tasks of the owner and its processing
flag (user-initiated cancellation). -/
def clear_user (s : TaskQueue α) (u : Nat) : TaskQueue α :=
  { queue := s.queue.filter (fun t => decide (t.1 ≠ u)),
    processing := s.processing.filter (fun v => decide (v ≠ u)) }

/-! ## Reachable queue states

The program mutates the queue only at these call sites: enqueue from
add_to_queue_direct (handlers.py), the worker cycle in main.py which pops
the head and immediately marks its owner processing with no suspension
point in between, the finally clause of the worker clearing the flag, and
clear_user from the cancel command. -/

/-- The pop-and-mark step of the worker loop (main.py, QueueProcessor.start):
get_next_task followed, when a task was returned, by set_processing true
for its owner. -/
def workerPop (s : TaskQueue α) : TaskQueue α :=
  match get_next_task s with
  | (none, s1) => s1
  | (some t, s1) => set_processing s1 t.1 true

/-- Queue states reachable from the initial empty queue through the
operations as the program calls them. -/
inductive Reach (maxQueueSize : Nat) : TaskQueue α → Prop
  | init : Reach maxQueueSize (TaskQueue.init α)
  | enq (s : TaskQueue α) (u : Nat) (d : α) :
      Reach maxQueueSize s → Reach maxQueueSize (add_task maxQueueSize s u d).2
  | pop (s : TaskQueue α) :
      Reach maxQueueSize s → Reach maxQueueSize (workerPop s)
  | fin (s : TaskQueue α) (u : Nat) :
      Reach maxQueueSize s → Reach maxQueueSize (set_processing s u false)
  | cancel (s : TaskQueue α) (u : Nat) :
      Reach maxQueueSize s → Reach maxQueueSize (clear_user s u)

/-- Number of live tasks of an owner: queued tasks plus the processing flag. -/
def liveCount (s : TaskQueue α) (u : Nat) : Nat :=
  s.queue.countP (fun t => decide (t.1 = u)) + (if u ∈ s.processing then 1 else 0)

/-! ## Questions and the row-based artifact (processors/csv_processor.py)

The source passes questions around as dicts; the typed record below fixes
the fields the orchestration reads.  The derived correct_option letter
chr(65 + index) and the two constant classification columns written by
the generator are not read anywhere and are omitted. -/

structure Question where
  question_description : String
  options : List String
  correct_answer_index : Nat
  explanation : String
deriving Repr, DecidableEq

/-- One data row of the artifact, keyed by the fixed header of
CSVGenerator.questions_to_csv.  The csv module quotes and unquotes field
values, so the file round-trips rows faithfully and the embedding works
at the row level. -/
structure Row where
  questions : String
  option1 : String
  option2 : String
  option3 : String
  option4 : String
  option5 : String
  answer : String
  explanation : String
deriving Repr, DecidableEq

/-- The while loop of questions_to_csv: append empty strings until the
options list has at least 5 entries. -/
def padOptions (l : List String) : List String :=
  l ++ List.replicate (5 - l.length) ""

/-- One output row of CSVGenerator.questions_to_csv.  The answer column is
str(index + 1); the source writes an empty answer cell only when the
index key is missing from the dict, which a typed record cannot exhibit. -/
def questionToRow (q : Question) : Row :=
  { questions := q.question_description
    option1 := (padOptions q.options).getD 0 ""
    option2 := (padOptions q.options).getD 1 ""
    option3 := (padOptions q.options).getD 2 ""
    option4 := (padOptions q.options).getD 3 ""
    option5 := (padOptions q.options).getD 4 ""
    answer := toString (q.correct_answer_index + 1)
    explanation := q.explanation }

/-- Row content written by CSVGenerator.questions_to_csv. -/
def questions_to_csv_rows (qs : List Question) : List Row :=
  qs.map questionToRow

/-- Observable value of the question list held by the caller after
CSVGenerator.questions_to_csv returns: the while loop appends the padding
to the very list objects the caller keeps, so the call mutates every
question of the argument in place. -/
def questions_to_csv_post (qs : List Question) : List Question :=
  qs.map (fun q => { q with options := padOptions q.options })

/-- The whitespace class of Python str.strip and int(). -/
def pyWhitespace (c : Char) : Bool :=
  c == ' ' || c == '\t' || c == '\n' || c == '\r' || c == '\x0b' || c == '\x0c'

/-- Python str.strip(): drop leading and trailing whitespace. -/
def pyStrip (s : String) : String :=
  ⟨((s.data.dropWhile pyWhitespace).reverse.dropWhile pyWhitespace).reverse⟩

/-- Decimal digit accumulation for the int() model. -/
def digitsToNat : List Char → Nat → Nat
  | [], acc => acc
  | c :: rest, acc => digitsToNat rest (acc * 10 + (c.toNat - 48))

/-- A non-empty all-digit character run, as int() requires. -/
def pyDigits? (l : List Char) : Option Nat :=
  if l.isEmpty then none
  else if l.all (fun c => c.isDigit) then some (digitsToNat l 0) else none

/-- Python int() as used on the answer cell: surrounding whitespace is
ignored, an optional sign precedes a non-empty digit run; anything else
raises, which makes the except branch of the parser fire (modelled as
none). -/
def pyInt? (s : String) : Option Int :=
  match (pyStrip s).data with
  | '-' :: rest => (pyDigits? rest).map (fun n => -(n : Int))
  | '+' :: rest => (pyDigits? rest).map (fun n => (n : Int))
  | l => (pyDigits? l).map (fun n => (n : Int))

/-- The clamp of the parser: max(0, min(answer_num - 1, len(options) - 1)). -/
def clampIndex (answerNum : Int) (numOptions : Nat) : Nat :=
  (max 0 (min (answerNum - 1) ((numOptions : Int) - 1))).toNat

/-- The option cells of a row that are truthy (non-empty), in column order. -/
def rowOptions (r : Row) : List String :=
  [r.option1, r.option2, r.option3, r.option4, r.option5].filter
    (fun s => decide (s ≠ ""))

/-- One row of CSVParser.parse_csv_file: skip the row when the question
cell is falsy (empty) or when fewer than 2 option cells are non-empty,
read the 1-based answer cell with int() and clamp it, falling back to
index 0 when int() raises, and strip the text fields. -/
def rowToQuestion (r : Row) : Option Question :=
  if r.questions = "" then none
  else if (rowOptions r).length < 2 then none
  else
    some { question_description := pyStrip r.questions
           options := rowOptions r
           correct_answer_index :=
             match pyInt? r.answer with
             | some a => clampIndex a (rowOptions r).length
             | none => 0
           explanation := pyStrip r.explanation }

/-- CSVParser.parse_csv_file at the row level: the rows that survive the
two skip conditions, in file order. -/
def parse_csv_file (rows : List Row) : List Question :=
  rows.filterMap rowToQuestion

/-! ## Session store (bot/handlers.py, BotHandlers.user_states)

One user_states entry is a dict whose key set varies along the flow; each
optional field below models one possible key.  The store itself is an
association list with dict semantics. -/

structure Session where
  content_type : Option String := none
  content_paths : List String := []
  mode : Option String := none
  questions : Option (List Question) := none
  session_id : Option String := none
  csv_path : Option String := none
  source : Option String := none
  selected_group : Option Int := none
  post_session : Option String := none
  waiting_for : Option String := none
deriving Repr, DecidableEq

/-- Dict lookup in user_states. -/
def usLookup : List (Nat × Session) → Nat → Option Session
  | [], _ => none
  | p :: rest, u => if p.1 = u then some p.2 else usLookup rest u

/-- Dict key assignment in user_states; the entry order is normalized, which
lookup cannot observe. -/
def usSet (us : List (Nat × Session)) (u : Nat) (s : Session) :
    List (Nat × Session) :=
  us.filter (fun p => decide (p.1 ≠ u)) ++ [(u, s)]

/-- Dict key deletion in user_states. -/
def usDel (us : List (Nat × Session)) (u : Nat) : List (Nat × Session) :=
  us.filter (fun p => decide (p.1 ≠ u))

/-- Outbound messages the orchestration sends or edits, by content. -/
inductive Reply
  | processingStatus
  | noQuestions
  | artifactDelivered (n : Nat)
  | doneStatus (n : Nat)
  | errorReport
  | postingStatus
  | postingCount (n : Nat)
  | completeCounts (ok bad : Nat)
  | sessionExpired
  | askTopicId
  | queueReply (pos : Int)
  | taskInProgress
  | documentReceived
deriving Repr, DecidableEq

/-- Payload of a queued task as assembled by add_to_queue_direct
(handlers.py); the page_range is always None in that call site and the
chat context is transport state, both omitted. -/
structure TaskData where
  content_type : String
  content_paths : List String
  mode : String
deriving Repr, DecidableEq

/-! ## Content pipeline (bot/content_processor.py, process_content)

External collaborators are parameters: normalizeOk tells whether the
document-to-image conversion raised (stage 1), extracted is the question
list the extraction service returned over all pages (per-page failures
are already swallowed into it by the source), and deliverOk tells whether
sending the artifact to the owner raised.  The filesystem is the list of
existing file paths.  The in-flight progress edits are not modelled. -/

def process_content (uid : Nat) (content_paths : List String)
    (normalizeOk : Bool) (extracted : List Question) (deliverOk : Bool)
    (sessionId : String) (us : List (Nat × Session)) (fs : List String) :
    List (Nat × Session) × List String × List Reply :=
  if !normalizeOk then
    (us, fs, [Reply.processingStatus, Reply.errorReport])
  else if extracted.isEmpty then
    (us, fs, [Reply.processingStatus, Reply.noQuestions])
  else
    let questions := questions_to_csv_post extracted
    let csvFile := "questions_" ++ sessionId ++ ".csv"
    let us1 := usSet us uid
      { questions := some questions
        session_id := some sessionId
        csv_path := some csvFile
        source := some "generated" }
    if !deliverOk then
      (us1, csvFile :: fs, [Reply.processingStatus, Reply.errorReport])
    else
      (us1, (csvFile :: fs).filter (fun p => decide (p ∉ content_paths)),
       [Reply.processingStatus, Reply.artifactDelivered questions.length,
        Reply.doneStatus questions.length])

/-- BotHandlers.handle_document, pdf branch: reject when the owner already
has a user_states entry or is being processed, otherwise store the upload
entry and prompt for the mode.  The entry stays in user_states when the
task is enqueued and while it is processed; nothing removes it on a
pipeline abort. -/
def handle_document (uid : Nat) (path : String) (tq : TaskQueue TaskData)
    (us : List (Nat × Session)) : List (Nat × Session) × List Reply :=
  if (usLookup us uid).isSome || is_processing tq uid then
    (us, [Reply.taskInProgress])
  else
    (usSet us uid { content_type := some "pdf", content_paths := [path] },
     [Reply.documentReceived])

/-- The mode_ callback branch (callbacks.py) followed by
add_to_queue_direct (handlers.py): record the chosen mode in the session,
assemble the task payload from the stored entry and enqueue it, replying
with the admission result.  Entries reaching this branch always carry the
content keys; the getD defaults stand for the dict accesses. -/
def handle_mode_callback (maxQueueSize : Nat) (uid : Nat) (mode : String)
    (tq : TaskQueue TaskData) (us : List (Nat × Session)) :
    TaskQueue TaskData × List (Nat × Session) × List Reply :=
  match usLookup us uid with
  | none => (tq, us, [Reply.sessionExpired])
  | some sess =>
      let us1 := usSet us uid { sess with mode := some mode }
      match usLookup us1 uid with
      | none => (tq, us1, [])
      | some sess1 =>
          let td : TaskData :=
            { content_type := sess1.content_type.getD "",
              content_paths := sess1.content_paths,
              mode := sess1.mode.getD "extraction" }
          let r := add_task maxQueueSize tq uid td
          (r.2, us1, [Reply.queueReply r.1])

/-! ## Worker loop (main.py, QueueProcessor.start)

One cycle of the while loop, parametric in the content pipeline: the
pipeline acts on an external state σ (sessions, files, transport) and
reports through its Bool component whether it raised; the except branch
of the source catches that, logs, and falls through to the finally
clause, so both outcomes follow the same state path.  The middle
component of the result is the queue state at the moment the pipeline is
invoked, the first is the state when the next cycle begins. -/

def worker_cycle {α σ : Type} (pipeline : Nat → α → σ → σ × Bool)
    (tq : TaskQueue α) (ext : σ) :
    TaskQueue α × σ × Option (Nat × TaskQueue α) :=
  match get_next_task tq with
  | (none, tq1) => (tq1, ext, none)
  | (some t, tq1) =>
      let tqInvoke := set_processing tq1 t.1 true
      let r := pipeline t.1 t.2 ext
      let tqDone := set_processing tqInvoke t.1 false
      (tqDone, r.1, some (t.1, tqInvoke))

/-! ## Posting pipeline and destination callbacks
(bot/content_processor.py post_quizzes_to_destination, bot/callbacks.py
dest branches)

postBatch stands for QuizPoster.post_quizzes_batch, an external module
returning the success and failed counts; the per-user settings lookup and
the progress edits are external reads with no effect on this state.  A
dict access on a missing key is the KeyError fault. -/

def post_quizzes_to_destination (postBatch : List Question → Nat × Nat)
    (uid : Nat) (us : List (Nat × Session)) :
    Except String (List (Nat × Session) × List Reply) :=
  match usLookup us uid with
  | none => Except.ok (us, [])
  | some sess =>
      match sess.questions with
      | none => Except.error "KeyError"
      | some qs =>
          Except.ok (usDel us uid,
            [Reply.postingCount qs.length,
             Reply.completeCounts (postBatch qs).1 (postBatch qs).2])

/-- The dest_ch_ callback branch: edit the status to posting, then run the
posting pipeline, which returns silently when the owner has no session. -/
def handle_dest_ch (postBatch : List Question → Nat × Nat) (uid : Nat)
    (us : List (Nat × Session)) :
    Except String (List (Nat × Session) × List Reply) :=
  match post_quizzes_to_destination postBatch uid us with
  | Except.error e => Except.error e
  | Except.ok r => Except.ok (r.1, Reply.postingStatus :: r.2)

/-- The dest_gr_ callback branch: item assignments on user_states[uid]
with the topic prompt in between; the first access raises KeyError when
the owner has no entry. -/
def handle_dest_gr (uid : Nat) (groupId : Int) (sessionId : String)
    (us : List (Nat × Session)) :
    Except String (List (Nat × Session) × List Reply) :=
  match usLookup us uid with
  | none => Except.error "KeyError"
  | some sess =>
      Except.ok (usSet us uid
        { sess with
          selected_group := some groupId
          post_session := some sessionId
          waiting_for := some "topic_id" },
        [Reply.askTopicId])

lemma countP_filter_le (p q : β → Bool) (l : List β) :
    (l.filter q).countP p ≤ l.countP p := by
  induction l with
  | nil => simp
  | cons a l ih =>
    by_cases hq : q a <;> by_cases hp : p a <;>
      simp [List.filter_cons, List.countP_cons, hq, hp] <;> omega

lemma liveCount_invariant (maxQueueSize : Nat) (s : TaskQueue α)
    (h : Reach maxQueueSize s) : ∀ u, liveCount s u ≤ 1 := by
  induction h with
  | init => intro u; simp [liveCount, TaskQueue.init]
  | enq s u d _ ih =>
    intro v
    unfold add_task
    by_cases h1 : u ∈ s.processing
    · simpa [h1] using ih v
    by_cases h2 : ∃ t ∈ s.queue, t.1 = u
    · simpa [h1, h2] using ih v
    by_cases h3 : maxQueueSize ≤ s.queue.length
    · simpa [h1, h2, h3] using ih v
    have hzero : s.queue.countP (fun t => decide (t.1 = u)) = 0 := by
      rw [List.countP_eq_zero]
      intro t ht
      simp only [decide_eq_true_eq]
      exact fun he => h2 ⟨t, ht, he⟩
    by_cases hv : v = u
    · subst hv
      simp only [h1, h2, h3, if_false, liveCount, List.countP_append, hzero]
      simp [List.countP_cons, h1]
    · have := ih v
      simp only [liveCount, List.countP_append] at *
      have : ([(u, d)].countP (fun t => decide (t.1 = v))) = 0 := by
        simp [List.countP_cons, Ne.symm hv]
      simp only [h1, h2, h3, if_false]
      simp only [liveCount, List.countP_append, this]
      simpa using ih v
  | pop s _ ih =>
    intro v
    unfold workerPop get_next_task
    match hq : s.queue with
    | [] => simpa [hq] using ih v
    | t :: rest =>
      have hlive := ih t.1
      have hv2 := ih v
      rw [liveCount, hq, List.countP_cons] at hlive hv2
      rw [if_pos (by simp)] at hlive
      have hproc : t.1 ∉ s.processing := by
        by_cases hc : t.1 ∈ s.processing
        · rw [if_pos hc] at hlive; omega
        · exact hc
      rw [if_neg hproc] at hlive
      have hrest : rest.countP (fun x => decide (x.1 = t.1)) = 0 := by omega
      show liveCount (set_processing { s with queue := rest } t.1 true) v ≤ 1
      simp only [set_processing, if_neg hproc, if_true, liveCount]
      by_cases hv : v = t.1
      · subst hv
        rw [hrest, if_pos (List.mem_cons_self t.1 s.processing)]
      · have hne : ((fun x : Nat × α => decide (x.1 = v)) t = true) ↔ False := by
          simp [Ne.symm hv]
        rw [if_neg (by simp [Ne.symm hv])] at hv2
        have hmemeq : (if v ∈ t.1 :: s.processing then 1 else 0) =
            (if v ∈ s.processing then 1 else 0) := by
          by_cases hvp : v ∈ s.processing
          · rw [if_pos hvp, if_pos (List.mem_cons_of_mem _ hvp)]
          · rw [if_neg hvp, if_neg (by simp [List.mem_cons, hv, hvp])]
        rw [hmemeq]
        omega
  | fin s u _ ih =>
    intro v
    have := ih v
    simp only [set_processing, liveCount, if_false, Bool.false_eq_true] at *
    by_cases hv : v ∈ s.processing.filter (fun w => decide (w ≠ u))
    · have hv2 : v ∈ s.processing := List.mem_of_mem_filter hv
      simp only [hv, hv2, if_true] at *
      omega
    · simp only [hv, if_false]
      omega
  | cancel s u _ ih =>
    intro v
    have := ih v
    simp only [clear_user, liveCount] at *
    have h1 := countP_filter_le (fun t => decide (t.1 = v))
      (fun t => decide (t.1 ≠ u)) s.queue
    by_cases hv : v ∈ s.processing.filter (fun w => decide (w ≠ u))
    · have hv2 : v ∈ s.processing := List.mem_of_mem_filter hv
      simp only [hv, hv2, if_true] at *
      omega
    · simp only [hv, if_false]
      omega

/-- C1.  For every reachable queue state each owner has at most one live
task (queued or processing), and add_task for an owner who already has a
queued task or whose processing flag is set returns the AlreadyQueued
rejection -2 and leaves the state unchanged. -/
theorem C1_single_live_task_per_owner {α : Type} (maxQueueSize : Nat)
    (s : TaskQueue α) (h : Reach maxQueueSize s) :
    (∀ u, liveCount s u ≤ 1) ∧
    (∀ u d, (u ∈ s.processing ∨ ∃ t ∈ s.queue, t.1 = u) →
      add_task maxQueueSize s u d = (-2, s)) := by
  refine ⟨liveCount_invariant maxQueueSize s h, ?_⟩
  intro u d hu
  unfold add_task
  by_cases h1 : u ∈ s.processing
  · simp [h1]
  · have h2 : ∃ t ∈ s.queue, t.1 = u := hu.resolve_left h1
    simp [h1, h2]

/-- Witness for C1 at a concrete reachable state: after enqueuing owner 1
into an empty queue of capacity 3, a second add_task for owner 1 is
rejected with -2 and the state is unchanged. -/
theorem C1_single_live_task_per_owner_witness :
    add_task 3 (TaskQueue.mk [(1, ())] []) 1 () = (-2, TaskQueue.mk [(1, ())] []) := by
  have hr : Reach 3 (TaskQueue.mk [(1, ())] []) := by
    have h0 : Reach 3 (TaskQueue.init Unit) := Reach.init
    have h1 := Reach.enq (TaskQueue.init Unit) 1 () h0
    have he : (add_task 3 (TaskQueue.init Unit) 1 ()).2 = TaskQueue.mk [(1, ())] [] := by
      decide
    rwa [he] at h1
  exact (C1_single_live_task_per_owner 3 (TaskQueue.mk [(1, ())] []) hr).2 1 ()
    (Or.inr ⟨(1, ()), by decide, rfl⟩)

/-! ## C2: admission, tail position, capacity -/

/-- C2.  For an owner with no live task, add_task appends at the tail and
returns the 1-based tail position when the queue is below capacity, and
returns the QueueFull rejection -1 leaving the state unchanged when the
queue is at capacity; the queue length never exceeds the capacity; and
with capacity 2 enqueuing owners 1, 2, 3 into the empty queue yields
positions 1 and 2 and the rejection -1 for the third, which leaves the
queue unchanged. -/
theorem C2_admission_capacity :
    (∀ (α : Type) (maxQueueSize : Nat) (s : TaskQueue α) (u : Nat) (d : α),
       u ∉ s.processing → (∀ t ∈ s.queue, t.1 ≠ u) →
       (s.queue.length < maxQueueSize →
         add_task maxQueueSize s u d =
           (((s.queue.length + 1 : Nat) : Int), { s with queue := s.queue ++ [(u, d)] })) ∧
       (maxQueueSize ≤ s.queue.length → add_task maxQueueSize s u d = (-1, s))) ∧
    (∀ (α : Type) (maxQueueSize : Nat) (s : TaskQueue α) (u : Nat) (d : α),
       s.queue.length ≤ maxQueueSize →
       (add_task maxQueueSize s u d).2.queue.length ≤ maxQueueSize) ∧
    ((add_task 2 (TaskQueue.init Unit) 1 ()).1 = 1 ∧
     (add_task 2 (add_task 2 (TaskQueue.init Unit) 1 ()).2 2 ()).1 = 2 ∧
     (add_task 2 (add_task 2 (add_task 2 (TaskQueue.init Unit) 1 ()).2 2 ()).2 3 ()) =
       (-1, (add_task 2 (add_task 2 (TaskQueue.init Unit) 1 ()).2 2 ()).2)) := by
  refine ⟨?_, ?_, by decide⟩
  · intro α maxQueueSize s u d h1 h2
    have h2e : ¬ ∃ t ∈ s.queue, t.1 = u := by
      rintro ⟨t, ht, he⟩
      exact h2 t ht he
    constructor
    · intro hlen
      rw [add_task, if_neg h1, if_neg h2e, if_neg (by omega)]
    · intro hlen
      rw [add_task, if_neg h1, if_neg h2e, if_pos hlen]
  · intro α maxQueueSize s u d hle
    rw [add_task]
    by_cases h1 : u ∈ s.processing
    · simpa [h1] using hle
    by_cases h2 : ∃ t ∈ s.queue, t.1 = u
    · simpa [h1, h2] using hle
    by_cases h3 : maxQueueSize ≤ s.queue.length
    · simpa [h1, h2, h3] using hle
    · simp only [h1, h2, h3, if_false, List.length_append, List.length_cons,
        List.length_nil]
      omega

/-- Witness for C2 at a concrete input: enqueuing owner 1 into the empty
queue of capacity 2 returns position 1 and appends the task. -/
theorem C2_admission_capacity_witness :
    add_task 2 (TaskQueue.init Unit) 1 () =
      (1, { TaskQueue.init Unit with queue := (TaskQueue.init Unit).queue ++ [(1, ())] }) :=
  (C2_admission_capacity.1 Unit 2 (TaskQueue.init Unit) 1 ()
    (by decide) (by decide)).1 (by decide)

/-! ## C9: position reporting and FIFO order -/

lemma get_position_from_absent (u : Nat) (l : List (Nat × α)) (i : Nat)
    (h : ∀ t ∈ l, t.1 ≠ u) : get_position_from u l i = 0 := by
  induction l generalizing i with
  | nil => rfl
  | cons t rest ih =>
    rw [get_position_from, if_neg (h t (List.mem_cons_self t rest))]
    exact ih (i + 1) (fun x hx => h x (List.mem_cons_of_mem t hx))

lemma get_position_from_found (u : Nat) (d : α) (l1 l2 : List (Nat × α)) (i : Nat)
    (h : ∀ t ∈ l1, t.1 ≠ u) :
    get_position_from u (l1 ++ (u, d) :: l2) i = i + l1.length + 1 := by
  induction l1 generalizing i with
  | nil => simp [get_position_from]
  | cons t rest ih =>
    rw [List.cons_append, get_position_from,
      if_neg (h t (List.mem_cons_self t rest))]
    rw [ih (i + 1) (fun x hx => h x (List.mem_cons_of_mem t hx))]
    simp only [List.length_cons]
    omega

/-- C9.  get_position returns 0 when the owner has no queued task (whatever
the processing set holds), returns the 1-based index of the first queued
task of the owner otherwise, get_next_task removes exactly the head in
FIFO order and afterwards the position of the dequeued owner is 0, and
positions of distinct queued tasks are strictly increasing in queue
order. -/
theorem C9_position_fifo :
    (∀ (α : Type) (s : TaskQueue α) (u : Nat),
       (∀ t ∈ s.queue, t.1 ≠ u) → get_position s u = 0) ∧
    (∀ (α : Type) (s : TaskQueue α) (u : Nat) (d : α) (l1 l2 : List (Nat × α)),
       s.queue = l1 ++ (u, d) :: l2 → (∀ t ∈ l1, t.1 ≠ u) →
       get_position s u = l1.length + 1) ∧
    (∀ (α : Type) (s : TaskQueue α) (u : Nat) (d : α) (rest : List (Nat × α)),
       s.queue = (u, d) :: rest →
       get_next_task s = (some (u, d), { s with queue := rest }) ∧
       ((∀ t ∈ rest, t.1 ≠ u) → get_position { s with queue := rest } u = 0)) ∧
    (∀ (α : Type) (s : TaskQueue α) (u v : Nat) (d e : α)
       (l1 l2 l3 : List (Nat × α)),
       s.queue = l1 ++ (u, d) :: l2 ++ (v, e) :: l3 →
       (∀ t ∈ l1, t.1 ≠ u) → (∀ t ∈ l1 ++ (u, d) :: l2, t.1 ≠ v) →
       get_position s u < get_position s v) := by
  refine ⟨?_, ?_, ?_, ?_⟩
  · intro α s u h
    exact get_position_from_absent u s.queue 0 h
  · intro α s u d l1 l2 hq h
    rw [get_position, hq, get_position_from_found u d l1 l2 0 h]
    omega
  · intro α s u d rest hq
    constructor
    · rw [get_next_task]
      split
      · simp_all
      · rename_i t rest2 heq
        rw [hq] at heq
        cases heq
        rfl
    · intro h
      exact get_position_from_absent u rest 0 h
  · intro α s u v d e l1 l2 l3 hq hu hv
    have hqv : s.queue = (l1 ++ (u, d) :: l2) ++ (v, e) :: l3 := by
      rw [hq]
    have h1 : get_position s u = l1.length + 1 := by
      rw [get_position, hq]
      have : l1 ++ (u, d) :: l2 ++ (v, e) :: l3 = l1 ++ (u, d) :: (l2 ++ (v, e) :: l3) := by
        simp
      rw [this, get_position_from_found u d l1 (l2 ++ (v, e) :: l3) 0 hu]
      omega
    have h2 : get_position s v = (l1 ++ (u, d) :: l2).length + 1 := by
      rw [get_position, hqv, get_position_from_found v e (l1 ++ (u, d) :: l2) l3 0 hv]
      omega
    rw [h1, h2]
    simp only [List.length_append, List.length_cons]
    omega

/-- Witness for C9 at concrete inputs: in a queue holding tasks of owners 2
and 7 in this order, owner 1 has position 0, owner 7 has position 2, and
dequeuing removes the task of owner 2, whose position afterwards is 0. -/
theorem C9_position_fifo_witness :
    get_position (TaskQueue.mk [(2, ()), (7, ())] []) 1 = 0 ∧
    get_position (TaskQueue.mk [(2, ()), (7, ())] []) 7 = 2 ∧
    get_next_task (TaskQueue.mk [(2, ()), (7, ())] []) =
      (some (2, ()), TaskQueue.mk [(7, ())] []) := by
  refine ⟨?_, ?_, ?_⟩
  · exact C9_position_fifo.1 Unit (TaskQueue.mk [(2, ()), (7, ())] []) 1 (by decide)
  · exact C9_position_fifo.2.1 Unit (TaskQueue.mk [(2, ()), (7, ())] []) 7 ()
      [(2, ())] [] rfl (by decide)
  · exact (C9_position_fifo.2.2.1 Unit (TaskQueue.mk [(2, ()), (7, ())] []) 2 ()
      [(7, ())] rfl).1

/-! ## C3: the worker cycle and the processing flag -/

lemma is_processing_set_true (s : TaskQueue α) (u : Nat) :
    is_processing (set_processing s u true) u = true := by
  rw [is_processing, set_processing, if_pos rfl]
  by_cases h : u ∈ s.processing <;> simp [h]

lemma is_processing_set_false (s : TaskQueue α) (u : Nat) :
    is_processing (set_processing s u false) u = false := by
  rw [is_processing, set_processing]
  simp [List.mem_filter]

/-- C3.  In every cycle that dequeues a task, the queue state passed to
the pipeline has the processing flag of the dequeued owner set, the state
at which the next cycle begins has it cleared, and this holds for every
pipeline, whether it returns normally or reports a raised fault; a
raising pipeline leaves the loop in exactly the state a non-raising
pipeline with the same effect would, so a fault never terminates the
loop. -/
theorem C3_worker_cycle_processing_flag :
    ∀ (α σ : Type) (pipeline : Nat → α → σ → σ × Bool)
      (tq : TaskQueue α) (ext : σ) (t : Nat × α) (rest : List (Nat × α)),
      tq.queue = t :: rest →
      worker_cycle pipeline tq ext =
        (set_processing (set_processing { tq with queue := rest } t.1 true) t.1 false,
         (pipeline t.1 t.2 ext).1,
         some (t.1, set_processing { tq with queue := rest } t.1 true)) ∧
      is_processing (set_processing { tq with queue := rest } t.1 true) t.1 = true ∧
      is_processing (worker_cycle pipeline tq ext).1 t.1 = false ∧
      (worker_cycle pipeline tq ext).1 =
        (worker_cycle (fun u a e => ((pipeline u a e).1, false)) tq ext).1 := by
  intro α σ pipeline tq ext t rest hq
  obtain ⟨q, proc⟩ := tq
  replace hq : q = t :: rest := hq
  subst hq
  exact ⟨rfl, is_processing_set_true _ _, is_processing_set_false _ _, rfl⟩

/-- Witness for C3 at a concrete input: a raising pipeline over a queue
holding one task of owner 5. -/
theorem C3_worker_cycle_processing_flag_witness :
    worker_cycle (fun _ _ e => (e, true)) (TaskQueue.mk [(5, ())] []) 0 =
      (set_processing (set_processing
          { TaskQueue.mk [(5, ())] [] with queue := [] } 5 true) 5 false,
       0,
       some (5, set_processing { TaskQueue.mk [(5, ())] [] with queue := [] } 5 true)) :=
  (C3_worker_cycle_processing_flag Unit Nat (fun _ _ e => (e, true))
    (TaskQueue.mk [(5, ())] []) 0 (5, ()) [] rfl).1

/-! ## C4: round trip through the row-based artifact -/

lemma padOptions_length (l : List String) (h : l.length ≤ 5) :
    (padOptions l).length = 5 := by
  simp only [padOptions, List.length_append, List.length_replicate]
  omega

lemma list5_getD (p : List String) (h : p.length = 5) :
    [p.getD 0 "", p.getD 1 "", p.getD 2 "", p.getD 3 "", p.getD 4 ""] = p :=
  match p, h with
  | [a, b, c, d, e], _ => rfl
  | [], h => by simp at h
  | [a], h => by simp at h
  | [a, b], h => by simp at h
  | [a, b, c], h => by simp at h
  | [a, b, c, d], h => by simp at h
  | a :: b :: c :: d :: e :: f :: rest, h => by
      simp only [List.length_cons] at h
      omega

lemma filter_replicate_empty (n : Nat) :
    (List.replicate n "").filter (fun s => decide (s ≠ "")) = [] := by
  induction n with
  | zero => rfl
  | succ k ih => simp [List.replicate_succ, List.filter_cons, ih]

lemma filter_padOptions (l : List String) (hne : ∀ o ∈ l, o ≠ "") :
    (padOptions l).filter (fun s => decide (s ≠ "")) = l := by
  rw [padOptions, List.filter_append, filter_replicate_empty, List.append_nil]
  exact List.filter_eq_self.mpr (fun a ha => by simpa using hne a ha)

lemma pyIntParse_toString (n : Nat) (h : n < 5) :
    pyInt? (toString (n + 1)) = some ((n : Int) + 1) := by
  interval_cases n <;> rfl

lemma clampIndex_exact (i len : Nat) (h : i < len) :
    clampIndex ((i : Int) + 1) len = i := by
  rw [clampIndex]
  omega

lemma clampIndex_lt (a : Int) (len : Nat) (h : 0 < len) :
    clampIndex a len < len := by
  rw [clampIndex]
  omega

lemma rowToQuestion_questionToRow (q : Question)
    (htext : q.question_description ≠ "")
    (htrim : pyStrip q.question_description = q.question_description)
    (hlen2 : 2 ≤ q.options.length) (hlen5 : q.options.length ≤ 5)
    (hne : ∀ o ∈ q.options, o ≠ "")
    (hidx : q.correct_answer_index < q.options.length) :
    rowToQuestion (questionToRow q) =
      some { question_description := q.question_description
             options := q.options
             correct_answer_index := q.correct_answer_index
             explanation := pyStrip q.explanation } := by
  have hrow : rowOptions (questionToRow q) = q.options := by
    show ([(padOptions q.options).getD 0 "", (padOptions q.options).getD 1 "",
      (padOptions q.options).getD 2 "", (padOptions q.options).getD 3 "",
      (padOptions q.options).getD 4 ""]).filter (fun s => decide (s ≠ "")) = q.options
    rw [list5_getD _ (padOptions_length q.options hlen5)]
    exact filter_padOptions q.options hne
  rw [rowToQuestion, hrow]
  rw [if_neg (show ¬((questionToRow q).questions = "") from htext)]
  rw [if_neg (by omega : ¬(q.options.length < 2))]
  show some ({ question_description := pyStrip (questionToRow q).questions
               options := q.options
               correct_answer_index :=
                 match pyInt? (questionToRow q).answer with
                 | some a => clampIndex a q.options.length
                 | none => 0
               explanation := pyStrip (questionToRow q).explanation } : Question) = _
  have e1 : (questionToRow q).questions = q.question_description := rfl
  have e2 : (questionToRow q).answer = toString (q.correct_answer_index + 1) := rfl
  have e3 : (questionToRow q).explanation = q.explanation := rfl
  rw [e1, e2, e3, htrim, pyIntParse_toString q.correct_answer_index (by omega)]
  have hm : (match some ((q.correct_answer_index : Int) + 1) with
             | some a => clampIndex a q.options.length
             | none => 0) = q.correct_answer_index := clampIndex_exact _ _ hidx
  rw [hm]

/-- C4 (amended).  For question lists whose questions have non-empty text
free of leading and trailing whitespace, 2 to 5 non-empty options, and an
in-range correct index, serializing to the row artifact and re-parsing
yields the same text, options and correct index (the 1-based answer
column converting back to the same 0-based index); and the parser always
yields a correct index inside [0, len(options) - 1] and only questions
with at least 2 options. -/
theorem C4_round_trip_amended :
    (∀ qs : List Question,
       (∀ q ∈ qs,
          q.question_description ≠ "" ∧
          pyStrip q.question_description = q.question_description ∧
          2 ≤ q.options.length ∧ q.options.length ≤ 5 ∧
          (∀ o ∈ q.options, o ≠ "") ∧
          q.correct_answer_index < q.options.length) →
       (parse_csv_file (questions_to_csv_rows qs)).map
           (fun q => (q.question_description, q.options, q.correct_answer_index)) =
         qs.map
           (fun q => (q.question_description, q.options, q.correct_answer_index))) ∧
    (∀ (rows : List Row) (q : Question), q ∈ parse_csv_file rows →
       2 ≤ q.options.length ∧ q.correct_answer_index < q.options.length) := by
  constructor
  · intro qs h
    induction qs with
    | nil => rfl
    | cons q rest ih =>
      obtain ⟨h1, h2, h3, h4, h5, h6⟩ := h q (List.mem_cons_self q rest)
      rw [questions_to_csv_rows, List.map_cons, parse_csv_file,
        List.filterMap_cons, rowToQuestion_questionToRow q h1 h2 h3 h4 h5 h6]
      rw [List.map_cons, List.map_cons]
      have htail := ih (fun x hx => h x (List.mem_cons_of_mem q hx))
      rw [questions_to_csv_rows, parse_csv_file] at htail
      rw [htail]
  · intro rows q hq
    rw [parse_csv_file] at hq
    obtain ⟨r, hrmem, hr⟩ := List.mem_filterMap.mp hq
    rw [rowToQuestion] at hr
    by_cases hc1 : r.questions = ""
    · rw [if_pos hc1] at hr
      exact absurd hr (by simp)
    rw [if_neg hc1] at hr
    by_cases hc2 : (rowOptions r).length < 2
    · rw [if_pos hc2] at hr
      exact absurd hr (by simp)
    rw [if_neg hc2, Option.some_inj] at hr
    subst hr
    refine ⟨by simpa using (by omega : 2 ≤ (rowOptions r).length), ?_⟩
    show (match pyInt? r.answer with
          | some a => clampIndex a (rowOptions r).length
          | none => 0) < (rowOptions r).length
    rcases hp : pyInt? r.answer with _ | a
    · show 0 < (rowOptions r).length
      omega
    · exact clampIndex_lt a _ (by omega)

/-- Witness for the amended C4 at a concrete input: one well-formed
question round-trips unchanged. -/
theorem C4_round_trip_amended_witness :
    (parse_csv_file (questions_to_csv_rows
        [{ question_description := "q", options := ["a", "b"],
           correct_answer_index := 1, explanation := "e" }])).map
        (fun q => (q.question_description, q.options, q.correct_answer_index)) =
      [{ question_description := "q", options := ["a", "b"],
         correct_answer_index := 1, explanation := "e" : Question }].map
        (fun q => (q.question_description, q.options, q.correct_answer_index)) :=
  C4_round_trip_amended.1
    [{ question_description := "q", options := ["a", "b"],
       correct_answer_index := 1, explanation := "e" }]
    (by decide)

/-- C4 counterexample.  A question whose text carries a leading space is
well-formed in the sense of the claim (non-empty text, 2 non-empty
options, in-range index), yet re-parsing the serialized artifact strips
the text, so the round trip does not return the same text. -/
theorem C4_round_trip_counterexample :
    parse_csv_file (questions_to_csv_rows
        [{ question_description := " q", options := ["a", "b"],
           correct_answer_index := 0, explanation := "" }]) =
      [{ question_description := "q", options := ["a", "b"],
         correct_answer_index := 0, explanation := "" }] ∧
    ("q" : String) ≠ " q" := by
  constructor
  · rfl
  · decide

/-! ## C5: destination selection without a session -/

/-- C5, behaviour at the failing input.  When the owner has no session,
the dest_gr_ branch raises KeyError on its first user_states access and
the dest_ch_ branch replies only with the posting status before the
posting pipeline returns silently; neither path produces the
SessionExpired reply the specification requires. -/
theorem C5_dest_callbacks_without_session :
    handle_dest_gr 42 100 "gen_42_x" [] = Except.error "KeyError" ∧
    handle_dest_ch (fun qs => (qs.length, 0)) 42 [] =
      Except.ok ([], [Reply.postingStatus]) ∧
    Reply.sessionExpired ∉ [Reply.postingStatus] := by
  refine ⟨rfl, rfl, by decide⟩

/-! ## C6: zero extracted questions -/

/-- C6 (amended).  When extraction yields zero questions the content
pipeline aborts reporting that no questions were found and mutates
nothing: user_states is returned unchanged, so no session with questions
is created and any pre-existing upload entry of the owner is retained
rather than removed, and the filesystem is untouched. -/
theorem C6_no_questions_amended :
    ∀ (uid : Nat) (cps : List String) (extracted : List Question)
      (deliverOk : Bool) (sid : String) (us : List (Nat × Session))
      (fs : List String),
      extracted = [] →
      process_content uid cps true extracted deliverOk sid us fs =
        (us, fs, [Reply.processingStatus, Reply.noQuestions]) := by
  intro uid cps extracted dOk sid us fs h
  subst h
  rfl

/-- Witness for the amended C6 at a concrete input. -/
theorem C6_no_questions_amended_witness :
    process_content 42 ["42_doc.pdf"] true [] true "gen" [] [] =
      ([], [], [Reply.processingStatus, Reply.noQuestions]) :=
  C6_no_questions_amended 42 ["42_doc.pdf"] [] true "gen" [] [] rfl

/-- C6 counterexample.  Owner 42 uploads a document, which stores the
upload entry in user_states, and the task then aborts with zero extracted
questions: the abort is reported, yet the owner still has a user_states
entry afterwards, namely the untouched upload entry. -/
theorem C6_session_retained_counterexample :
    ((process_content 42 ["42_doc.pdf"] true [] true "gen"
        (handle_document 42 "42_doc.pdf" (TaskQueue.init TaskData) []).1
        ["42_doc.pdf"]).2.2 = [Reply.processingStatus, Reply.noQuestions]) ∧
    (usLookup (process_content 42 ["42_doc.pdf"] true [] true "gen"
        (handle_document 42 "42_doc.pdf" (TaskQueue.init TaskData) []).1
        ["42_doc.pdf"]).1 42 =
      some { content_type := some "pdf", content_paths := ["42_doc.pdf"] }) := by
  constructor <;> rfl

/-! ## C7: release of the raw input files -/

lemma not_mem_filter_excluded (p : String) (cps l : List String) (hp : p ∈ cps) :
    p ∉ l.filter (fun x => decide (x ∉ cps)) := by
  intro hmem
  have h2 := (List.mem_filter.mp hmem).2
  rw [decide_eq_true_eq] at h2
  exact h2 hp

/-- C7 (amended).  The raw input files are deleted only when the whole
pipeline succeeds through artifact delivery; when stage 1 raises, when
extraction yields no questions, or when delivery raises, the filesystem
keeps every file it had, the raw inputs included. -/
theorem C7_raw_input_deletion_amended :
    ∀ (uid : Nat) (cps : List String) (extracted : List Question)
      (sid : String) (us : List (Nat × Session)) (fs : List String)
      (deliverOk : Bool),
      (extracted ≠ [] → deliverOk = true →
        ∀ p ∈ cps,
          p ∉ (process_content uid cps true extracted deliverOk sid us fs).2.1) ∧
      ((process_content uid cps false extracted deliverOk sid us fs).2.1 = fs) ∧
      (extracted = [] →
        (process_content uid cps true extracted deliverOk sid us fs).2.1 = fs) ∧
      (extracted ≠ [] → deliverOk = false →
        (process_content uid cps true extracted deliverOk sid us fs).2.1 =
          ("questions_" ++ sid ++ ".csv") :: fs) := by
  intro uid cps extracted sid us fs deliverOk
  refine ⟨?_, rfl, ?_, ?_⟩
  · intro hne hd p hp
    subst hd
    rcases extracted with _ | ⟨q0, qrest⟩
    · exact absurd rfl hne
    · exact not_mem_filter_excluded p cps _ hp
  · intro h
    subst h
    rfl
  · intro hne hd
    subst hd
    rcases extracted with _ | ⟨q0, qrest⟩
    · exact absurd rfl hne
    · rfl

/-- Witness for the amended C7 at a concrete input: on a fully successful
run the raw input file is gone afterwards. -/
theorem C7_raw_input_deletion_amended_witness :
    "42_in.pdf" ∉ (process_content 42 ["42_in.pdf"] true
        [{ question_description := "q", options := ["a", "b"],
           correct_answer_index := 0, explanation := "" }] true "gen" []
        ["42_in.pdf"]).2.1 :=
  (C7_raw_input_deletion_amended 42 ["42_in.pdf"]
      [{ question_description := "q", options := ["a", "b"],
         correct_answer_index := 0, explanation := "" }] "gen" [] ["42_in.pdf"]
      true).1 (by simp) rfl "42_in.pdf" (by simp)

/-- C7 counterexample.  The raw input file survives both a zero-question
abort and a delivery failure, although the claim requires deletion on
every abort. -/
theorem C7_raw_input_retention_counterexample :
    (process_content 42 ["42_doc.pdf"] true [] true "gen" []
        ["42_doc.pdf"]).2.1 = ["42_doc.pdf"] ∧
    (process_content 42 ["42_doc.pdf"] true
        [{ question_description := "q", options := ["a", "b"],
           correct_answer_index := 0, explanation := "" }] false "gen" []
        ["42_doc.pdf"]).2.1 = ["questions_gen.csv", "42_doc.pdf"] := by
  constructor <;> rfl

/-! ## C8: the posting pipeline consumes the session -/

lemma usLookup_usDel (us : List (Nat × Session)) (u : Nat) :
    usLookup (usDel us u) u = none := by
  induction us with
  | nil => rfl
  | cons p rest ih =>
    rw [usDel, List.filter_cons]
    by_cases h : p.1 = u
    · rw [if_neg (by simp [h])]
      exact ih
    · rw [if_pos (by simp [h]), usLookup, if_neg h]
      exact ih

lemma usLookup_usSet (us : List (Nat × Session)) (u : Nat) (s : Session) :
    usLookup (usSet us u s) u = some s := by
  rw [usSet]
  induction us with
  | nil => simp [usLookup]
  | cons p rest ih =>
    rw [List.filter_cons]
    by_cases h : p.1 = u
    · rw [if_neg (by simp [h])]
      exact ih
    · rw [if_pos (by simp [h]), List.cons_append, usLookup, if_neg h]
      exact ih

/-- C8.  For an owner whose session exists and carries questions, the
posting pipeline completes by showing the final success and failed counts
as the posting module reports them — for every posting module, including
one failing every post — and deletes the session unconditionally: the
owner has no user_states entry afterwards. -/
theorem C8_posting_clears_session :
    ∀ (postBatch : List Question → Nat × Nat) (uid : Nat)
      (us : List (Nat × Session)) (sess : Session) (qs : List Question),
      usLookup us uid = some sess → sess.questions = some qs →
      post_quizzes_to_destination postBatch uid us =
        Except.ok (usDel us uid,
          [Reply.postingCount qs.length,
           Reply.completeCounts (postBatch qs).1 (postBatch qs).2]) ∧
      usLookup (usDel us uid) uid = none := by
  intro pb uid us sess qs h1 h2
  refine ⟨?_, usLookup_usDel us uid⟩
  simp only [post_quizzes_to_destination, h1, h2]

/-- Witness for C8 at a concrete input: a posting module failing every
post still yields the counts reply and clears the session. -/
theorem C8_posting_clears_session_witness :
    post_quizzes_to_destination (fun qs => (0, qs.length)) 42
        [(42, { questions :=
                  some [{ question_description := "q", options := ["a", "b"],
                          correct_answer_index := 0, explanation := "" }] })] =
      Except.ok ([], [Reply.postingCount 1, Reply.completeCounts 0 1]) ∧
    usLookup ([] : List (Nat × Session)) 42 = none :=
  C8_posting_clears_session (fun qs => (0, qs.length)) 42
    [(42, { questions :=
              some [{ question_description := "q", options := ["a", "b"],
                      correct_answer_index := 0, explanation := "" }] })]
    { questions :=
        some [{ question_description := "q", options := ["a", "b"],
                correct_answer_index := 0, explanation := "" }] }
    [{ question_description := "q", options := ["a", "b"],
       correct_answer_index := 0, explanation := "" }] rfl rfl

/-! ## C10: the serializer pads the question lists in place -/

lemma zip_map_snd (f : Question → Question) (qs : List Question) :
    ∀ p ∈ qs.zip (qs.map f), p.2 = f p.1 := by
  induction qs with
  | nil => intro p hp; simp at hp
  | cons a rest ih =>
    intro p hp
    rw [List.map_cons, List.zip_cons_cons] at hp
    rcases List.mem_cons.mp hp with h | h
    · rw [h]
    · exact ih p h

/-- C10.  Serializing pads the options of every question of the very list
the caller passed: afterwards each question holds its original options
followed by empty-string padding, of length exactly 5 whenever it had at
most 5 options, with text and correct index untouched; and the question
list the pipeline stores in the session of the owner is that padded
list. -/
theorem C10_serializer_pads_in_place :
    (∀ qs : List Question,
       (questions_to_csv_post qs).length = qs.length ∧
       (∀ p ∈ qs.zip (questions_to_csv_post qs),
          p.2.options =
            p.1.options ++ List.replicate (5 - p.1.options.length) "" ∧
          (p.1.options.length ≤ 5 → p.2.options.length = 5) ∧
          p.2.question_description = p.1.question_description ∧
          p.2.correct_answer_index = p.1.correct_answer_index)) ∧
    (∀ (uid : Nat) (cps : List String) (extracted : List Question)
       (deliverOk : Bool) (sid : String) (us : List (Nat × Session))
       (fs : List String),
       extracted ≠ [] →
       usLookup (process_content uid cps true extracted deliverOk sid us fs).1
           uid =
         some { questions := some (questions_to_csv_post extracted)
                session_id := some sid
                csv_path := some ("questions_" ++ sid ++ ".csv")
                source := some "generated" }) := by
  constructor
  · intro qs
    refine ⟨by simp [questions_to_csv_post], ?_⟩
    intro p hp
    have h2 := zip_map_snd (fun q => { q with options := padOptions q.options })
      qs p hp
    rw [h2]
    exact ⟨rfl, fun h5 => padOptions_length p.1.options h5, rfl, rfl⟩
  · intro uid cps extracted dOk sid us fs hne
    rcases extracted with _ | ⟨q0, qrest⟩
    · exact absurd rfl hne
    · cases dOk
      · exact usLookup_usSet us uid _
      · exact usLookup_usSet us uid _

/-- Witness for C10 at a concrete input: the session stored for owner 7
holds the padded question list. -/
theorem C10_serializer_pads_in_place_witness :
    usLookup (process_content 7 [] true
        [{ question_description := "q", options := ["a", "b"],
           correct_answer_index := 0, explanation := "" }] true "sid" []
        []).1 7 =
      some { questions := some (questions_to_csv_post
               [{ question_description := "q", options := ["a", "b"],
                  correct_answer_index := 0, explanation := "" }])
             session_id := some "sid"
             csv_path := some ("questions_" ++ "sid" ++ ".csv")
             source := some "generated" } :=
  C10_serializer_pads_in_place.2 7 []
    [{ question_description := "q", options := ["a", "b"],
       correct_answer_index := 0, explanation := "" }] true "sid" [] []
    (by simp)
